import Mathlib

/-!
Verification development for the `complex_ai` repository: a live stock
market-data pipeline with a SQL backing store
(`backend/stock_script/database_migration.sql`) and a React frontend
(`frontend/src/components/StockCard.tsx`, `frontend/src/hooks/useQuote.ts`).

The frontend is embedded shallowly: the numbers appearing in the quote data
are modelled as exact four-digit fixed-point decimals (the store's
`DECIMAL(12,4)` contract), the `toFixed(2)` call as exact decimal rounding
(sign extracted first, then round half up, per ECMA `Number.prototype.toFixed`),
and JSX output as a `Card` value recording exactly the strings the component
renders.  The SQL views are embedded relationally over lists of rows; where
the SQL leaves an ordering under-specified (ties in `ORDER BY`, `DISTINCT ON`)
the embedding is parameterised by an admissible ordering rather than fixing
one the source does not fix.
-/

namespace StockApp

/-- Numeric quote values crossing the JSON API (`price`, `changeAmount`,
`changePercent`).  The store's contract types them as fixed-point decimals
with four fractional digits (`DECIMAL(12,4)`), so a value is modelled exactly
as its integer number of ten-thousandths. -/
abbrev FixedVal := ℤ

/-- The `StockQuote` interface of `useQuote.ts` / `StockCard.tsx`:
`{symbol, name, price|null, changeAmount|null, changePercent|null, error?}`. -/
structure StockQuote where
  symbol : String
  name : String
  price : Option FixedVal
  changeAmount : Option FixedVal
  changePercent : Option FixedVal
  error : Option String
  deriving DecidableEq, Repr

/-- Two-digit zero-padded rendering of `m`, used for the fractional part
produced by `toFixed(2)`. -/
def twoPad (m : ℕ) : String :=
  if m < 10 then "0" ++ toString m else toString m

/-- ECMA `Number.prototype.toFixed(2)` on a four-digit fixed-point value: if
the value is negative emit a leading minus and continue with its absolute
value, then pick the integer `n` minimising the distance of `n / 100` to the
value, larger `n` on a tie (round half up — on `a` ten-thousandths this is
`(a + 50) / 100` hundredths), and print `n` with two fractional digits. -/
def toFixed2 (v : FixedVal) : String :=
  let a : ℕ := v.natAbs
  let n : ℕ := (a + 50) / 100
  (if v < 0 then "-" else "") ++ (toString (n / 100) ++ ("." ++ twoPad (n % 100)))

/-- `formatChangeAmount` from `StockCard.tsx`: `'---'` for null, otherwise
`toFixed(2)` with a leading plus sign for strictly positive amounts. -/
def formatChangeAmount (amount : Option FixedVal) : String :=
  match amount with
  | none => "---"
  | some v =>
    let formatted := toFixed2 v
    if 0 < v then "+" ++ formatted else formatted

/-- `formatChangePercent` from `StockCard.tsx`: `'---'` for null, otherwise
`toFixed(2)` followed by a percent sign, with a leading plus sign for strictly
positive percentages. -/
def formatChangePercent (percent : Option FixedVal) : String :=
  match percent with
  | none => "---"
  | some v =>
    let formatted := toFixed2 v
    if 0 < v then "+" ++ (formatted ++ "%") else formatted ++ "%"

/-- The current-price text of `StockCard.tsx`:
`quote.price !== null ? $...toFixed(2) : '---'`. -/
def priceText (price : Option FixedVal) : String :=
  match price with
  | none => "---"
  | some v => "$" ++ toFixed2 v

/-- `isPositive` from `StockCard.tsx`. -/
def isPositive (changeAmount : Option FixedVal) : Bool :=
  match changeAmount with
  | none => false
  | some v => decide (0 < v)

/-- `isNegative` from `StockCard.tsx`. -/
def isNegative (changeAmount : Option FixedVal) : Bool :=
  match changeAmount with
  | none => false
  | some v => decide (v < 0)

/-- The `priceColor` class string chosen by `StockCard.tsx`. -/
def priceColor (changeAmount : Option FixedVal) : String :=
  if isPositive changeAmount then "text-green-600"
  else if isNegative changeAmount then "text-red-600"
  else "text-gray-700"

/-- The `bgColor` class string chosen by `StockCard.tsx`. -/
def bgColor (changeAmount : Option FixedVal) : String :=
  if isPositive changeAmount then "bg-green-50"
  else if isNegative changeAmount then "bg-red-50"
  else "bg-white"

/-- What one rendered `StockCard` shows: either the error-state card (symbol
plus the error line, no price or change fields) or the normal card with the
formatted price, change amount and change percent strings. -/
inductive Card where
  | errorCard (symbol : String) (errorText : String) : Card
  | priceCard (symbol : String) (name : String) (price : String)
      (changeAmount : String) (changePercent : String)
      (priceColor : String) (bgColor : String) : Card
  deriving DecidableEq, Repr

/-- Whether a rendered card is the error-state card. -/
def Card.isError : Card → Bool
  | .errorCard _ _ => true
  | .priceCard _ _ _ _ _ _ _ => false

/-- The `StockCard` component: `if (quote.error)` takes the error branch for a
truthy error (present and non-empty, per JS truthiness of strings), otherwise
renders the price card. -/
def renderStockCard (q : StockQuote) : Card :=
  match q.error with
  | some e =>
    if e = "" then
      Card.priceCard q.symbol q.name (priceText q.price)
        (formatChangeAmount q.changeAmount) (formatChangePercent q.changePercent)
        (priceColor q.changeAmount) (bgColor q.changeAmount)
    else
      Card.errorCard q.symbol ("Error: " ++ e)
  | none =>
    Card.priceCard q.symbol q.name (priceText q.price)
      (formatChangeAmount q.changeAmount) (formatChangePercent q.changePercent)
      (priceColor q.changeAmount) (bgColor q.changeAmount)

/-- State of the `useQuotes` hook: the `quotes`, `loading` and `error`
`useState` cells. -/
structure HookState where
  quotes : List StockQuote
  loading : Bool
  error : Option String
  deriving DecidableEq, Repr

/-- Initial hook state: `useState<StockQuote[]>([])`, `useState(true)`,
`useState<string | null>(null)`. -/
def initialHookState : HookState :=
  { quotes := [], loading := true, error := none }

/-- Outcome of the `axios.get` call inside `fetchQuotes`: the promise either
resolves with the response data or rejects. -/
inductive FetchOutcome where
  | ok (data : List StockQuote) : FetchOutcome
  | err : FetchOutcome

/-- One run of `fetchQuotes` from `useQuote.ts`, given the outcome of the HTTP
call; returns the resulting hook state together with whether an HTTP request
was issued.  Empty ticker list: only `setLoading(false)`, early return, no
request.  Otherwise `setLoading(true); setError(null)`, then on success
`setQuotes(data)`, on failure `setError("Failed to retrieve stock data from
the server.")`, and `setLoading(false)` in the `finally` block. -/
def fetchQuotes (tickers : List String) (s : HookState) (outcome : FetchOutcome) :
    HookState × Bool :=
  if tickers = [] then
    ({ quotes := s.quotes, loading := false, error := s.error }, false)
  else
    match outcome with
    | .ok data => ({ quotes := data, loading := false, error := none }, true)
    | .err =>
      ({ quotes := s.quotes, loading := false,
         error := some "Failed to retrieve stock data from the server." }, true)

/-- A row of the `companies` table of `database_migration.sql`.  `symbol` is
the primary key; every other column is nullable.  `marketcap DECIMAL(20,2)` is
modelled as an integer number of hundredths; dates and timestamps as integers. -/
structure CompanyRow where
  symbol : String
  name : Option String
  exchange : Option String
  industry : Option String
  marketcap : Option ℤ
  country : Option String
  ipo : Option ℤ
  weburl : Option String
  logo : Option String
  updated_at : ℤ
  created_at : ℤ
  deriving DecidableEq, Repr

/-- A row of the `quotes` table: `id SERIAL PRIMARY KEY`, `symbol` referencing
`companies(symbol) ON DELETE CASCADE`, nullable `DECIMAL(12,4)` price columns
(modelled as integers of ten-thousandths), and a non-null upstream
`timestamp`. -/
structure QuoteRow where
  id : ℕ
  symbol : String
  current_price : Option ℤ
  high_price : Option ℤ
  low_price : Option ℤ
  open_price : Option ℤ
  prev_close : Option ℤ
  change : Option ℤ
  percent_change : Option ℤ
  timestamp : ℤ
  created_at : ℤ
  deriving DecidableEq, Repr

/-- The total order on symbols used by `ORDER BY symbol`: lexicographic on
the characters of the string (the store's byte-wise "C" collation). -/
def symbolLT (s t : String) : Prop :=
  s.data < t.data

instance (s t : String) : Decidable (symbolLT s t) :=
  inferInstanceAs (Decidable (_ < _))

/-- The comparator realised by `ORDER BY symbol, timestamp DESC` in the
`latest_quotes` view: `a` may come before `b` when `a`'s symbol is smaller, or
the symbols are equal and `a`'s timestamp is at least `b`'s.  Rows tied on
both keys are in no particular order, exactly as in SQL. -/
def scanLE (a b : QuoteRow) : Prop :=
  symbolLT a.symbol b.symbol ∨ (a.symbol = b.symbol ∧ b.timestamp ≤ a.timestamp)

instance (a b : QuoteRow) : Decidable (scanLE a b) :=
  inferInstanceAs (Decidable (_ ∨ _))

/-- `scan` is an order in which `SELECT ... FROM quotes ORDER BY symbol,
timestamp DESC` may deliver the rows of the table `tbl`: a permutation of the
table consistent with the comparator.  The view's output is a function of the
scan; ties in `(symbol, timestamp)` make several scans admissible. -/
def isAdmissibleScan (tbl scan : List QuoteRow) : Prop :=
  scan.Perm tbl ∧ scan.Pairwise scanLE

instance (tbl scan : List QuoteRow) : Decidable (isAdmissibleScan tbl scan) :=
  inferInstanceAs (Decidable (_ ∧ _))

/-- Querying the `latest_quotes` view for one symbol: `DISTINCT ON (symbol)`
keeps, for each symbol, the first row the scan delivers, so the row returned
for `sym` is the first row of the scan carrying that symbol. -/
def latestQuote (sym : String) (scan : List QuoteRow) : Option QuoteRow :=
  (scan.filter fun r => r.symbol == sym).head?

/-- The comparator realised by `ORDER BY c.marketcap DESC` in
`portfolio_view`, as a boolean: descending, with SQL nulls first. -/
def mcapBeforeB (a b : CompanyRow) : Bool :=
  match a.marketcap, b.marketcap with
  | none, _ => true
  | some _, none => false
  | some x, some y => y ≤ x

/-- The comparator realised by `ORDER BY c.marketcap DESC` in
`portfolio_view`: descending, with SQL nulls first. -/
def mcapBefore (a b : CompanyRow) : Prop :=
  mcapBeforeB a b = true

instance (a b : CompanyRow) : Decidable (mcapBefore a b) :=
  inferInstanceAs (Decidable (_ = true))

/-- `ord` is an order in which `portfolio_view`'s `ORDER BY c.marketcap DESC`
may deliver the companies: a permutation of the `companies` table consistent
with the descending comparator (ties and nulls leave several orders
admissible). -/
def isAdmissibleCompanyOrder (tbl ord : List CompanyRow) : Prop :=
  ord.Perm tbl ∧ ord.Pairwise mcapBefore

instance (tbl ord : List CompanyRow) : Decidable (isAdmissibleCompanyOrder tbl ord) :=
  inferInstanceAs (Decidable (_ ∧ _))

/-- One output row of `portfolio_view`: the company columns selected by the
view plus the latest-quote columns, null when the `LEFT JOIN` finds no quote
or the underlying column is null. -/
structure PortfolioRow where
  symbol : String
  name : Option String
  industry : Option String
  marketcap : Option ℤ
  current_price : Option ℤ
  change : Option ℤ
  percent_change : Option ℤ
  last_update : Option ℤ
  deriving DecidableEq, Repr

/-- The `LEFT JOIN latest_quotes lq ON c.symbol = lq.symbol` of
`portfolio_view`, for one company: company columns joined with the fields of
that symbol's latest quote, if any. -/
def portfolioRowOf (scan : List QuoteRow) (c : CompanyRow) : PortfolioRow :=
  let lq := latestQuote c.symbol scan
  { symbol := c.symbol
    name := c.name
    industry := c.industry
    marketcap := c.marketcap
    current_price := lq.bind fun r => r.current_price
    change := lq.bind fun r => r.change
    percent_change := lq.bind fun r => r.percent_change
    last_update := lq.map fun r => r.timestamp }

/-- The `portfolio_view` view: one row per company, in the admissible company
order `ord`, each row the left join of the company with its latest quote. -/
def portfolio_view (ord : List CompanyRow) (scan : List QuoteRow) : List PortfolioRow :=
  ord.map (portfolioRowOf scan)

/-- One output row of `get_top_performers`: `RETURNS TABLE(symbol, name,
current_price, percent_change)`; the `WHERE lq.percent_change IS NOT NULL`
filter lets the percent change be carried as a plain integer. -/
structure TopPerfRow where
  symbol : String
  name : Option String
  current_price : Option ℤ
  percent_change : ℤ
  deriving DecidableEq, Repr

/-- The `FROM companies c INNER JOIN latest_quotes lq ON c.symbol = lq.symbol
WHERE lq.percent_change IS NOT NULL` part of `get_top_performers`: one row per
company that has a latest quote with a non-null percent change. -/
def topPerfJoin (companies : List CompanyRow) (scan : List QuoteRow) : List TopPerfRow :=
  companies.filterMap fun c =>
    match latestQuote c.symbol scan with
    | none => none
    | some lq =>
      match lq.percent_change with
      | none => none
      | some p => some { symbol := c.symbol, name := c.name,
                         current_price := lq.current_price, percent_change := p }

/-- The comparator realised by `ORDER BY lq.percent_change DESC` in
`get_top_performers` (no nulls remain after the `WHERE` filter). -/
def pcBefore (a b : TopPerfRow) : Prop :=
  b.percent_change ≤ a.percent_change

instance (a b : TopPerfRow) : Decidable (pcBefore a b) :=
  inferInstanceAs (Decidable (_ ≤ _))

/-- `sorted` is an order in which `get_top_performers`'s `ORDER BY
lq.percent_change DESC` may deliver the joined rows: a permutation of the join
consistent with the descending comparator. -/
def isAdmissibleTopOrder (companies : List CompanyRow) (scan : List QuoteRow)
    (sorted : List TopPerfRow) : Prop :=
  sorted.Perm (topPerfJoin companies scan) ∧ sorted.Pairwise pcBefore

instance (companies : List CompanyRow) (scan : List QuoteRow)
    (sorted : List TopPerfRow) : Decidable (isAdmissibleTopOrder companies scan sorted) :=
  inferInstanceAs (Decidable (_ ∧ _))

/-- `get_top_performers(limit_count)`: `LIMIT limit_count` applied to the
sorted joined rows. -/
def get_top_performers (limit_count : ℕ) (sorted : List TopPerfRow) : List TopPerfRow :=
  sorted.take limit_count

/-- The durable state declared by `database_migration.sql`: the `companies`
and `quotes` tables (the `fundamentals` table plays no part in the claims
about quotes). -/
structure DBState where
  companies : List CompanyRow
  quotes : List QuoteRow
  deriving DecidableEq, Repr

/-- The operations the system performs against the store: onboarding a
company, the Refresh Scheduler appending a quote sample, and deleting a
company.  The quotes table itself exposes no delete or update operation. -/
inductive DBOp where
  | insertCompany (c : CompanyRow) : DBOp
  | appendQuote (q : QuoteRow) : DBOp
  | deleteCompany (sym : String) : DBOp
  deriving DecidableEq, Repr

/-- Effect of one operation on the store.  `appendQuote` appends the row when
its `symbol` satisfies the `REFERENCES companies(symbol)` foreign key and is
rejected otherwise.  `deleteCompany` removes the company row, and — because of
`ON DELETE CASCADE` on `quotes.symbol` — also every quote row of that
symbol. -/
def applyOp (s : DBState) (op : DBOp) : DBState :=
  match op with
  | .insertCompany c => { companies := s.companies ++ [c], quotes := s.quotes }
  | .appendQuote q =>
    if s.companies.any fun c => c.symbol == q.symbol then
      { companies := s.companies, quotes := s.quotes ++ [q] }
    else
      { companies := s.companies, quotes := s.quotes }
  | .deleteCompany sym =>
    { companies := s.companies.filter fun c => c.symbol ≠ sym
      quotes := s.quotes.filter fun q => q.symbol ≠ sym }

/-- Effect of a sequence of operations, applied left to right. -/
def applyOps (s : DBState) (ops : List DBOp) : DBState :=
  ops.foldl applyOp s

/-- The empty database. -/
def emptyDB : DBState := { companies := [], quotes := [] }

/-- The typed per-symbol failures of the Upstream Fetcher, per the spec's
taxonomy `FetchError{NotFound, RateLimited, UpstreamUnavailable, Timeout}`. -/
inductive FetchError where
  | NotFound : FetchError
  | RateLimited : FetchError
  | UpstreamUnavailable : FetchError
  | Timeout : FetchError
  deriving DecidableEq, Repr

/-- The error string surfaced to the client for a per-symbol failure. -/
def FetchError.message : FetchError → String
  | .NotFound => "NotFound"
  | .RateLimited => "RateLimited"
  | .UpstreamUnavailable => "UpstreamUnavailable"
  | .Timeout => "Timeout"

/-- A successful per-symbol upstream result as the live-prices endpoint needs
it: the company's display name together with the price, absolute change and
percent change of the fetched sample. -/
structure UpstreamQuote where
  name : String
  price : FixedVal
  changeAmount : FixedVal
  changePercent : FixedVal
  deriving DecidableEq, Repr

/-- Modelled from the spec: the Django handler for
`GET /api/markets/live-prices?tickers=...` is not part of the repository (only
its frontend consumer `useQuote.ts` is), so the response entry for one ticker
is taken from §6: success populates `{symbol, name, price, changeAmount,
changePercent}` with no `error` field; a per-symbol failure yields nulls and
the `error` string instead of a price. -/
def livePricesEntry (upstream : String → Except FetchError UpstreamQuote)
    (t : String) : StockQuote :=
  match upstream t with
  | .ok u =>
    { symbol := t, name := u.name, price := some u.price,
      changeAmount := some u.changeAmount, changePercent := some u.changePercent,
      error := none }
  | .error e =>
    { symbol := t, name := "", price := none, changeAmount := none,
      changePercent := none, error := some e.message }

/-- Modelled from the spec: the whole `GET /api/markets/live-prices` response
— "JSON array of `{symbol, name, price|null, changeAmount|null,
changePercent|null, error?}`, one entry per requested ticker, preserving
request order"; a single symbol's failure never fails the batch. -/
def livePrices (tickers : List String)
    (upstream : String → Except FetchError UpstreamQuote) : List StockQuote :=
  tickers.map (livePricesEntry upstream)

/-- The Refresh Scheduler's per-symbol-set phase, per the spec's state machine
`Idle → Fetching → Committing → Idle`. -/
inductive SchedPhase where
  | idle : SchedPhase
  | fetching : SchedPhase
  | committing : SchedPhase
  deriving DecidableEq, Repr

/-- Modelled from the spec: the Refresh Scheduler (§4.3) is not part of the
repository, so its trigger-deduplication state is taken from the spec — the
phase of the symbol set's state machine, the number of triggers currently
awaiting the in-flight result, and a counter of calls issued to the Upstream
Fetcher. -/
structure SchedState where
  phase : SchedPhase
  waiters : ℕ
  upstreamCalls : ℕ
  deriving DecidableEq, Repr

/-- Modelled from the spec: arrival of one refresh trigger.  From `Idle` it
issues the single upstream fetch and moves to `Fetching`; while `Fetching` or
`Committing` it "observes and awaits the in-flight result rather than issuing
a duplicate upstream call". -/
def trigger (s : SchedState) : SchedState :=
  match s.phase with
  | .idle => { phase := .fetching, waiters := s.waiters, upstreamCalls := s.upstreamCalls + 1 }
  | .fetching => { phase := s.phase, waiters := s.waiters + 1, upstreamCalls := s.upstreamCalls }
  | .committing => { phase := s.phase, waiters := s.waiters + 1, upstreamCalls := s.upstreamCalls }

/-- `n` trigger arrivals, none of them separated by a fetch completion — an
overlapping burst of concurrent refresh requests. -/
def triggerBurst : ℕ → SchedState → SchedState
  | 0, s => s
  | n + 1, s => triggerBurst n (trigger s)

/-- Modelled from the spec: the in-flight fetch completes — the result is
committed and delivered to every waiting trigger, and the state machine
returns to `Idle`. -/
def completeFetch (s : SchedState) : SchedState :=
  { phase := .idle, waiters := 0, upstreamCalls := s.upstreamCalls }

/-- The scheduler state before any refresh activity. -/
def initialSched : SchedState :=
  { phase := .idle, waiters := 0, upstreamCalls := 0 }

/-- Concrete `companies` row used by witnesses: a symbol with quotes. -/
def appleCo : CompanyRow :=
  { symbol := "AAPL", name := some "Apple", exchange := some "NASDAQ",
    industry := some "Tech", marketcap := some 300000000000000, country := some "US",
    ipo := none, weburl := none, logo := none, updated_at := 0, created_at := 0 }

/-- Concrete `companies` row used by witnesses: a symbol with a quote whose
percent change is null. -/
def msftCo : CompanyRow :=
  { symbol := "MSFT", name := some "Microsoft", exchange := some "NASDAQ",
    industry := some "Tech", marketcap := some 250000000000000, country := some "US",
    ipo := none, weburl := none, logo := none, updated_at := 0, created_at := 0 }

/-- Concrete `companies` row used by witnesses: a symbol with no quotes yet. -/
def newCo : CompanyRow :=
  { symbol := "NEWCO", name := some "New Company", exchange := none,
    industry := none, marketcap := none, country := none,
    ipo := none, weburl := none, logo := none, updated_at := 0, created_at := 0 }

/-- Concrete quote row: AAPL at timestamp 100, sequence id 1. -/
def appleQ1 : QuoteRow :=
  { id := 1, symbol := "AAPL", current_price := some 1901200, high_price := none,
    low_price := none, open_price := none, prev_close := none, change := some 12300,
    percent_change := some 6500, timestamp := 100, created_at := 0 }

/-- Concrete quote row: AAPL at the same timestamp 100 but higher sequence
id 2 and a different price — a timestamp tie with `appleQ1`. -/
def appleQ2 : QuoteRow :=
  { id := 2, symbol := "AAPL", current_price := some 1851100, high_price := none,
    low_price := none, open_price := none, prev_close := none, change := some (-4800),
    percent_change := some (-2500), timestamp := 100, created_at := 1 }

/-- Concrete quote row: AAPL at the later timestamp 200, sequence id 3. -/
def appleQ3 : QuoteRow :=
  { id := 3, symbol := "AAPL", current_price := some 1920000, high_price := none,
    low_price := none, open_price := none, prev_close := none, change := some 18800,
    percent_change := some 9900, timestamp := 200, created_at := 2 }

/-- Concrete quote row: MSFT with a null `percent_change`. -/
def msftQ1 : QuoteRow :=
  { id := 4, symbol := "MSFT", current_price := some 3301000, high_price := none,
    low_price := none, open_price := none, prev_close := none, change := none,
    percent_change := none, timestamp := 90, created_at := 0 }

/-- Concrete upstream fetcher used by witnesses: knows AAPL, reports
`NotFound` for everything else. -/
def upstreamEx : String → Except FetchError UpstreamQuote := fun t =>
  if t = "AAPL" then
    .ok { name := "Apple", price := 1901200, changeAmount := 12300, changePercent := 6500 }
  else
    .error .NotFound

/-- Concrete database state used by witnesses: two companies, one quote
each. -/
def dbEx : DBState :=
  applyOps emptyDB [.insertCompany appleCo, .insertCompany msftCo,
    .appendQuote appleQ1, .appendQuote msftQ1]

lemma fca_head_pos (v : FixedVal) (h : 0 < v) :
    (formatChangeAmount (some v)).data.head? = some '+' := by
  have hd : ("+" : String).data = ['+'] := rfl
  simp [formatChangeAmount, if_pos h, String.data_append, hd]

lemma fcp_head_pos (v : FixedVal) (h : 0 < v) :
    (formatChangePercent (some v)).data.head? = some '+' := by
  have hd : ("+" : String).data = ['+'] := rfl
  simp [formatChangePercent, if_pos h, String.data_append, hd]

lemma toFixed2_data_neg (v : FixedVal) (h : v < 0) :
    (toFixed2 v).data =
      '-' :: ((toString ((v.natAbs + 50) / 100 / 100)).data ++
        '.' :: (twoPad ((v.natAbs + 50) / 100 % 100)).data) := by
  have hd : ("-" : String).data = ['-'] := rfl
  simp [toFixed2, String.data_append, if_pos h, hd]

lemma fca_head_of_neg (v : FixedVal) (h : v < 0) :
    (formatChangeAmount (some v)).data.head? = some '-' := by
  have hv : ¬ 0 < v := not_lt.mpr h.le
  simp [formatChangeAmount, hv, toFixed2_data_neg v h]

lemma fcp_head_of_neg (v : FixedVal) (h : v < 0) :
    (formatChangePercent (some v)).data.head? = some '-' := by
  have hv : ¬ 0 < v := not_lt.mpr h.le
  simp [formatChangePercent, hv, String.data_append, toFixed2_data_neg v h]

/-- Claim C10: for entries without an error, `StockCard` renders the literal
`---` in place of a null price, null change amount or null change percent
(numeric formatting is never applied to a null), and the formatted change
amount and change percent carry a leading plus sign exactly when the value is
strictly positive — zero and negative values get none. -/
theorem stock_card_null_and_sign_format (q : StockQuote) (v : FixedVal)
    (hq : q.error = none) :
    priceText none = "---" ∧ formatChangeAmount none = "---" ∧
    formatChangePercent none = "---" ∧
    ((formatChangeAmount (some v)).data.head? = some '+' ↔ 0 < v) ∧
    ((formatChangePercent (some v)).data.head? = some '+' ↔ 0 < v) ∧
    renderStockCard q = Card.priceCard q.symbol q.name (priceText q.price)
      (formatChangeAmount q.changeAmount) (formatChangePercent q.changePercent)
      (priceColor q.changeAmount) (bgColor q.changeAmount) := by
  refine ⟨rfl, rfl, rfl, ⟨?_, fca_head_pos v⟩, ⟨?_, fcp_head_pos v⟩, ?_⟩
  · intro hhead
    rcases lt_trichotomy v 0 with hneg | rfl | hpos
    · rw [fca_head_of_neg v hneg] at hhead
      exact absurd hhead (by decide)
    · exact absurd hhead (by decide)
    · exact hpos
  · intro hhead
    rcases lt_trichotomy v 0 with hneg | rfl | hpos
    · rw [fcp_head_of_neg v hneg] at hhead
      exact absurd hhead (by decide)
    · exact absurd hhead (by decide)
    · exact hpos
  · simp [renderStockCard, hq]

/-- Witness for C10 at a concrete quote and value. -/
theorem stock_card_null_and_sign_format_witness :
    priceText none = "---" ∧ formatChangeAmount none = "---" ∧
    formatChangePercent none = "---" ∧
    ((formatChangeAmount (some 12300)).data.head? = some '+' ↔ (0 : ℤ) < 12300) ∧
    ((formatChangePercent (some 12300)).data.head? = some '+' ↔ (0 : ℤ) < 12300) ∧
    renderStockCard ⟨"AAPL", "Apple", none, some 12300, none, none⟩ =
      Card.priceCard "AAPL" "Apple" "---" "+1.23" "---" "text-green-600" "bg-green-50" :=
  stock_card_null_and_sign_format ⟨"AAPL", "Apple", none, some 12300, none, none⟩
    12300 rfl

/-- Claim C7 counterexample: a quote entry whose `error` field is present but
holds the empty string is falsy in `if (quote.error)`, so `StockCard` renders
the normal price card for it, not the error card. -/
theorem stock_card_empty_error_counterexample :
    ((⟨"AAPL", "Apple", some 1901200, some 0, some 0, some ""⟩ : StockQuote).error).isSome
      = true ∧
    (renderStockCard ⟨"AAPL", "Apple", some 1901200, some 0, some 0, some ""⟩).isError
      = false := by
  decide

/-- Claim C7 (amended): for every quote entry whose `error` field is present
and non-empty, `StockCard` renders the error-state card showing the symbol and
the error string, and that card carries no price or change fields; rendering
is a total function, so a degraded entry never crashes the render. -/
theorem stock_card_error_state (q : StockQuote) (e : String)
    (hq : q.error = some e) (hne : e ≠ "") :
    renderStockCard q = Card.errorCard q.symbol ("Error: " ++ e) ∧
    (renderStockCard q).isError = true := by
  have h1 : renderStockCard q = Card.errorCard q.symbol ("Error: " ++ e) := by
    simp [renderStockCard, hq, hne]
  exact ⟨h1, by rw [h1]; rfl⟩

/-- Witness for C7 at a concrete degraded entry. -/
theorem stock_card_error_state_witness :
    renderStockCard ⟨"ZZZZ", "", none, none, none, some "NotFound"⟩ =
      Card.errorCard "ZZZZ" ("Error: " ++ "NotFound") ∧
    (renderStockCard ⟨"ZZZZ", "", none, none, none, some "NotFound"⟩).isError = true :=
  stock_card_error_state ⟨"ZZZZ", "", none, none, none, some "NotFound"⟩
    "NotFound" rfl (by decide)

/-- Claim C8: when the live-prices HTTP request fails, `fetchQuotes` leaves
the previously fetched quotes array unchanged, sets the error state to the
fixed message "Failed to retrieve stock data from the server.", and ends the
attempt with loading false (and it did issue the request). -/
theorem use_quotes_failure_state (tickers : List String) (s : HookState)
    (h : tickers ≠ []) :
    fetchQuotes tickers s .err =
      ({ quotes := s.quotes, loading := false,
         error := some "Failed to retrieve stock data from the server." }, true) ∧
    (fetchQuotes tickers s .err).1.quotes = s.quotes := by
  constructor <;> simp [fetchQuotes, h]

/-- Witness for C8 at a concrete ticker list and hook state. -/
theorem use_quotes_failure_state_witness :
    fetchQuotes ["AAPL"] initialHookState .err =
      ({ quotes := initialHookState.quotes, loading := false,
         error := some "Failed to retrieve stock data from the server." }, true) ∧
    (fetchQuotes ["AAPL"] initialHookState .err).1.quotes = initialHookState.quotes :=
  use_quotes_failure_state ["AAPL"] initialHookState (by decide)

/-- Claim C9: called with an empty tickers array, `fetchQuotes` issues no HTTP
request at all and settles immediately — whatever the network would have done
— with quotes `[]`, error `null` and loading `false`. -/
theorem use_quotes_empty_tickers (outcome : FetchOutcome) :
    fetchQuotes [] initialHookState outcome =
      ({ quotes := [], loading := false, error := none }, false) := by
  simp [fetchQuotes, initialHookState]

/-- Claim C2 counterexample: because of `ON DELETE CASCADE` on
`quotes.symbol`, deleting a company removes that symbol's quote rows — after
inserting AAPL and appending a quote, deleting the AAPL company makes the
appended quote row disappear. -/
theorem quotes_cascade_delete_counterexample :
    appleQ1 ∈ (applyOps emptyDB [.insertCompany appleCo, .appendQuote appleQ1]).quotes ∧
    appleQ1 ∉ (applyOps emptyDB
      [.insertCompany appleCo, .appendQuote appleQ1, .deleteCompany "AAPL"]).quotes := by
  decide

/-- Claim C2 (amended): the quotes table is append-only in the sense that no
operation mutates an existing quote row or fabricates one — after any step,
every quote row either existed before or is the freshly appended sample — and
a quote row is only ever removed by deleting its own company, whose
`ON DELETE CASCADE` deletes the company's quotes; every other operation
preserves the row. -/
theorem quotes_append_only_outside_cascade (s : DBState) (op : DBOp) (r : QuoteRow)
    (hr : r ∈ s.quotes)
    (hop : ∀ sym, op = DBOp.deleteCompany sym → r.symbol ≠ sym) :
    r ∈ (applyOp s op).quotes ∧
    ∀ r' ∈ (applyOp s op).quotes,
      r' ∈ s.quotes ∨ ∃ q, op = DBOp.appendQuote q ∧ r' = q := by
  cases op with
  | insertCompany c =>
    exact ⟨hr, fun r' hr' => Or.inl hr'⟩
  | appendQuote q =>
    by_cases hfk : (s.companies.any fun c => c.symbol == q.symbol) = true
    · constructor
      · simp only [applyOp, if_pos hfk]
        exact List.mem_append_left _ hr
      · intro r' hr'
        simp only [applyOp, if_pos hfk] at hr'
        rcases List.mem_append.mp hr' with h | h
        · exact Or.inl h
        · exact Or.inr ⟨q, rfl, List.mem_singleton.mp h⟩
    · constructor
      · simp only [applyOp, if_neg hfk]
        exact hr
      · intro r' hr'
        simp only [applyOp, if_neg hfk] at hr'
        exact Or.inl hr'
  | deleteCompany sym =>
    have hne := hop sym rfl
    constructor
    · simp [applyOp, List.mem_filter, hr, hne]
    · intro r' hr'
      exact Or.inl (List.mem_of_mem_filter hr')

/-- Witness for C2 at a concrete state: deleting MSFT keeps AAPL's quote
row. -/
theorem quotes_append_only_outside_cascade_witness :
    appleQ1 ∈ (applyOp dbEx (DBOp.deleteCompany "MSFT")).quotes ∧
    ∀ r' ∈ (applyOp dbEx (DBOp.deleteCompany "MSFT")).quotes,
      r' ∈ dbEx.quotes ∨ ∃ q, DBOp.deleteCompany "MSFT" = DBOp.appendQuote q ∧ r' = q :=
  quotes_append_only_outside_cascade dbEx (DBOp.deleteCompany "MSFT") appleQ1
    (by decide) (by intro sym h; cases h; decide)

/-- Claim C3 (spec-modelled): the live-prices response has one entry per
requested ticker in request order; a per-symbol upstream failure yields an
entry carrying the error string and null prices instead of failing the whole
batch, and a success yields a populated entry. -/
theorem live_prices_one_entry_per_ticker (tickers : List String)
    (upstream : String → Except FetchError UpstreamQuote) :
    (livePrices tickers upstream).length = tickers.length ∧
    (∀ i : ℕ, (livePrices tickers upstream)[i]? =
      (tickers[i]?).map (livePricesEntry upstream)) ∧
    (∀ t e, upstream t = .error e →
      livePricesEntry upstream t = ⟨t, "", none, none, none, some e.message⟩) ∧
    (∀ t u, upstream t = .ok u →
      livePricesEntry upstream t =
        ⟨t, u.name, some u.price, some u.changeAmount, some u.changePercent, none⟩) := by
  refine ⟨by simp [livePrices], fun i => ?_, fun t e h => ?_, fun t u h => ?_⟩
  · simp [livePrices]
  · simp [livePricesEntry, h]
  · simp [livePricesEntry, h]

/-- Witness for C3: the partial-batch scenario — requesting AAPL and the
unknown ZZZZ yields two entries, AAPL populated and ZZZZ carrying
`error: "NotFound"`. -/
theorem live_prices_partial_batch_witness :
    (livePrices ["AAPL", "ZZZZ"] upstreamEx).length = 2 ∧
    livePricesEntry upstreamEx "AAPL" =
      ⟨"AAPL", "Apple", some 1901200, some 12300, some 6500, none⟩ ∧
    livePricesEntry upstreamEx "ZZZZ" = ⟨"ZZZZ", "", none, none, none, some "NotFound"⟩ ∧
    (livePrices ["AAPL", "ZZZZ"] upstreamEx)[1]? =
      some ⟨"ZZZZ", "", none, none, none, some "NotFound"⟩ := by
  have h := live_prices_one_entry_per_ticker ["AAPL", "ZZZZ"] upstreamEx
  refine ⟨h.1, h.2.2.2 "AAPL" ⟨"Apple", 1901200, 12300, 6500⟩ rfl,
    h.2.2.1 "ZZZZ" FetchError.NotFound rfl, ?_⟩
  rw [h.2.1 1]
  exact congrArg some (h.2.2.1 "ZZZZ" FetchError.NotFound rfl)

lemma triggerBurst_fetching (k : ℕ) (s : SchedState)
    (hs : s.phase = SchedPhase.fetching) :
    triggerBurst k s =
      { phase := SchedPhase.fetching, waiters := s.waiters + k,
        upstreamCalls := s.upstreamCalls } := by
  induction k generalizing s with
  | zero =>
    obtain ⟨ph, w, u⟩ := s
    cases hs
    simp [triggerBurst]
  | succ k ih =>
    obtain ⟨ph, w, u⟩ := s
    cases hs
    have ht : trigger ⟨SchedPhase.fetching, w, u⟩ = ⟨SchedPhase.fetching, w + 1, u⟩ := rfl
    calc triggerBurst (k + 1) ⟨SchedPhase.fetching, w, u⟩
        = triggerBurst k ⟨SchedPhase.fetching, w + 1, u⟩ := by rw [triggerBurst, ht]
      _ = ⟨SchedPhase.fetching, w + 1 + k, u⟩ := ih _ rfl
      _ = ⟨SchedPhase.fetching, w + (k + 1), u⟩ := by
            congr 1
            omega

/-- Claim C4 (spec-modelled): a burst of `n ≥ 1` concurrent refresh triggers
for the same symbol set, starting from `Idle`, issues exactly one call to the
Upstream Fetcher; the other `n - 1` triggers await the in-flight result
instead of issuing duplicates. -/
theorem scheduler_at_most_one_fetch (n : ℕ) (hn : 1 ≤ n) (s : SchedState)
    (hs : s.phase = SchedPhase.idle) :
    (triggerBurst n s).upstreamCalls = s.upstreamCalls + 1 ∧
    (triggerBurst n s).waiters = s.waiters + (n - 1) := by
  cases n with
  | zero => exact absurd hn (by decide)
  | succ m =>
    obtain ⟨ph, w, u⟩ := s
    cases hs
    have ht : trigger ⟨SchedPhase.idle, w, u⟩ = ⟨SchedPhase.fetching, w, u + 1⟩ := rfl
    have hb : triggerBurst (m + 1) ⟨SchedPhase.idle, w, u⟩
        = triggerBurst m ⟨SchedPhase.fetching, w, u + 1⟩ := by rw [triggerBurst, ht]
    rw [hb, triggerBurst_fetching m _ rfl]
    exact ⟨rfl, by simp⟩

/-- Witness for C4: three overlapping triggers from the initial state produce
exactly one upstream call and two waiting triggers. -/
theorem scheduler_at_most_one_fetch_witness :
    (triggerBurst 3 initialSched).upstreamCalls = initialSched.upstreamCalls + 1 ∧
    (triggerBurst 3 initialSched).waiters = initialSched.waiters + (3 - 1) :=
  scheduler_at_most_one_fetch 3 (by decide) initialSched rfl

lemma latestQuote_mem_max (tbl scan : List QuoteRow) (sym : String)
    (hadm : isAdmissibleScan tbl scan) (r : QuoteRow)
    (h : latestQuote sym scan = some r) :
    r ∈ tbl ∧ r.symbol = sym ∧
      ∀ r' ∈ tbl, r'.symbol = sym → r'.timestamp ≤ r.timestamp := by
  obtain ⟨hperm, hsort⟩ := hadm
  unfold latestQuote at h
  cases hfe : scan.filter (fun x => x.symbol == sym) with
  | nil => rw [hfe] at h; simp at h
  | cons a t =>
    rw [hfe] at h
    simp only [List.head?_cons, Option.some.injEq] at h
    rw [← h]
    have haf : a ∈ scan.filter (fun x => x.symbol == sym) := by
      rw [hfe]; exact List.mem_cons_self a t
    have hrscan : a ∈ scan := List.mem_of_mem_filter haf
    have hsy : (a.symbol == sym) = true := (List.mem_filter.mp haf).2
    refine ⟨hperm.mem_iff.mp hrscan, eq_of_beq hsy, ?_⟩
    intro r' hr' hr'sym
    have hr'f : r' ∈ scan.filter (fun x => x.symbol == sym) :=
      List.mem_filter.mpr ⟨hperm.mem_iff.mpr hr', by simp [hr'sym]⟩
    rw [hfe] at hr'f
    rcases List.mem_cons.mp hr'f with rfl | hmem
    · exact le_refl _
    · have hp : (scan.filter (fun x => x.symbol == sym)).Pairwise scanLE :=
        hsort.sublist (List.filter_sublist scan)
      rw [hfe] at hp
      rcases (List.pairwise_cons.mp hp).1 r' hmem with hlt | ⟨_, hts⟩
      · exfalso
        rw [eq_of_beq hsy, hr'sym] at hlt
        exact lt_irrefl _ hlt
      · exact hts

lemma latestQuote_exists (tbl scan : List QuoteRow) (sym : String)
    (hadm : isAdmissibleScan tbl scan) (r0 : QuoteRow)
    (hr0 : r0 ∈ tbl) (hsym : r0.symbol = sym) :
    ∃ r, latestQuote sym scan = some r := by
  have hmem : r0 ∈ scan.filter (fun x => x.symbol == sym) :=
    List.mem_filter.mpr ⟨hadm.1.mem_iff.mpr hr0, by simp [hsym]⟩
  cases hfe : scan.filter (fun x => x.symbol == sym) with
  | nil => rw [hfe] at hmem; simp at hmem
  | cons a t => exact ⟨a, by simp [latestQuote, hfe]⟩

/-- Claim C1 (amended): however the view's under-specified ordering resolves,
`latest(symbol)` returns a sample of that symbol, among those appended, whose
upstream timestamp is maximal; when several samples tie on the maximum
timestamp the choice among them is unspecified (the view orders by timestamp
only, not by sequence id). -/
theorem latest_quote_is_max_timestamp (tbl scan : List QuoteRow) (sym : String)
    (hadm : isAdmissibleScan tbl scan) (r0 : QuoteRow) (hr0 : r0 ∈ tbl)
    (hsym : r0.symbol = sym) :
    ∃ r, latestQuote sym scan = some r ∧ r ∈ tbl ∧ r.symbol = sym ∧
      ∀ r' ∈ tbl, r'.symbol = sym → r'.timestamp ≤ r.timestamp := by
  obtain ⟨r, hr⟩ := latestQuote_exists tbl scan sym hadm r0 hr0 hsym
  obtain ⟨h1, h2, h3⟩ := latestQuote_mem_max tbl scan sym hadm r hr
  exact ⟨r, hr, h1, h2, h3⟩

/-- Claim C1 counterexample: two AAPL samples share the maximum timestamp; the
scan listing the lower sequence id first is admissible for `ORDER BY symbol,
timestamp DESC`, and on it the view returns the row with id 1, not the highest
sequence id 2. -/
theorem latest_quote_tie_not_highest_id :
    isAdmissibleScan [appleQ1, appleQ2] [appleQ1, appleQ2] ∧
    latestQuote "AAPL" [appleQ1, appleQ2] = some appleQ1 ∧
    appleQ2 ∈ [appleQ1, appleQ2] ∧ appleQ2.timestamp = appleQ1.timestamp ∧
    appleQ1.id < appleQ2.id := by
  decide

/-- Witness for C1 at a concrete table and admissible scan. -/
theorem latest_quote_is_max_timestamp_witness :
    isAdmissibleScan [appleQ1, appleQ3] [appleQ3, appleQ1] ∧
    ∃ r, latestQuote "AAPL" [appleQ3, appleQ1] = some r ∧ r ∈ [appleQ1, appleQ3] ∧
      r.symbol = "AAPL" ∧
      ∀ r' ∈ [appleQ1, appleQ3], r'.symbol = "AAPL" → r'.timestamp ≤ r.timestamp :=
  ⟨by decide, latest_quote_is_max_timestamp [appleQ1, appleQ3] [appleQ3, appleQ1]
    "AAPL" (by decide) appleQ1 (by decide) rfl⟩

/-- Claim C5: `portfolio_view` has exactly one row per known company — also
one with no quotes yet — each row the left join of the company's reference
data with that symbol's latest quote (which carries the maximal timestamp for
the symbol), and rows are ordered by market capitalization descending. -/
theorem portfolio_view_one_row_per_company_mcap_desc
    (companies ord : List CompanyRow) (tbl scan : List QuoteRow)
    (hc : isAdmissibleCompanyOrder companies ord)
    (hq : isAdmissibleScan tbl scan) :
    (portfolio_view ord scan).length = companies.length ∧
    ((portfolio_view ord scan).map PortfolioRow.symbol).Perm
      (companies.map CompanyRow.symbol) ∧
    (∀ r ∈ portfolio_view ord scan, ∃ c, c ∈ companies ∧ r = portfolioRowOf scan c) ∧
    (portfolio_view ord scan).Pairwise
      (fun a b => ∀ x y, a.marketcap = some x → b.marketcap = some y → y ≤ x) ∧
    (∀ c ∈ companies, ∀ q, latestQuote c.symbol scan = some q →
      q ∈ tbl ∧ q.symbol = c.symbol ∧
        ∀ q' ∈ tbl, q'.symbol = c.symbol → q'.timestamp ≤ q.timestamp) := by
  obtain ⟨hperm, hsort⟩ := hc
  refine ⟨?_, ?_, ?_, ?_, ?_⟩
  · simp [portfolio_view, hperm.length_eq]
  · have h1 : (portfolio_view ord scan).map PortfolioRow.symbol
        = ord.map CompanyRow.symbol := by
      simp only [portfolio_view, List.map_map]
      exact List.map_congr_left fun a _ => rfl
    rw [h1]
    exact hperm.map _
  · intro r hr
    obtain ⟨c, hcm, hce⟩ := List.mem_map.mp hr
    exact ⟨c, hperm.mem_iff.mp hcm, hce.symm⟩
  · unfold portfolio_view
    rw [List.pairwise_map]
    refine hsort.imp ?_
    intro a b hab x y hx hy
    have hax : a.marketcap = some x := hx
    have hby : b.marketcap = some y := hy
    unfold mcapBefore at hab
    simp [mcapBeforeB, hax, hby] at hab
    exact hab
  · intro c _ q hq'
    exact latestQuote_mem_max tbl scan c.symbol hq q hq'

/-- Witness for C5 at a concrete set of companies (one of them quoteless) and
an admissible ordering. -/
theorem portfolio_view_witness :
    isAdmissibleCompanyOrder [appleCo, msftCo, newCo] [newCo, appleCo, msftCo] ∧
    isAdmissibleScan [appleQ1, msftQ1] [appleQ1, msftQ1] ∧
    ((portfolio_view [newCo, appleCo, msftCo] [appleQ1, msftQ1]).length
        = ([appleCo, msftCo, newCo] : List CompanyRow).length ∧
      ((portfolio_view [newCo, appleCo, msftCo] [appleQ1, msftQ1]).map
          PortfolioRow.symbol).Perm
        (([appleCo, msftCo, newCo] : List CompanyRow).map CompanyRow.symbol) ∧
      (∀ r ∈ portfolio_view [newCo, appleCo, msftCo] [appleQ1, msftQ1],
        ∃ c, c ∈ [appleCo, msftCo, newCo] ∧ r = portfolioRowOf [appleQ1, msftQ1] c) ∧
      (portfolio_view [newCo, appleCo, msftCo] [appleQ1, msftQ1]).Pairwise
        (fun a b => ∀ x y, a.marketcap = some x → b.marketcap = some y → y ≤ x) ∧
      (∀ c ∈ ([appleCo, msftCo, newCo] : List CompanyRow), ∀ q,
        latestQuote c.symbol [appleQ1, msftQ1] = some q →
        q ∈ [appleQ1, msftQ1] ∧ q.symbol = c.symbol ∧
          ∀ q' ∈ [appleQ1, msftQ1], q'.symbol = c.symbol →
            q'.timestamp ≤ q.timestamp)) :=
  ⟨by decide, by decide,
    portfolio_view_one_row_per_company_mcap_desc [appleCo, msftCo, newCo]
      [newCo, appleCo, msftCo] [appleQ1, msftQ1] [appleQ1, msftQ1]
      (by decide) (by decide)⟩

/-- Claim C6: `get_top_performers(n)` returns at most `n` rows, each drawn
from a company whose latest quote has a non-null percent change (and that
quote is the symbol's latest by timestamp), in percent-change descending
order, and every returned row's percent change is at least that of every
joined row left out. -/
theorem get_top_performers_props
    (companies : List CompanyRow) (tbl scan : List QuoteRow)
    (sorted : List TopPerfRow) (n : ℕ)
    (hq : isAdmissibleScan tbl scan)
    (ht : isAdmissibleTopOrder companies scan sorted) :
    (get_top_performers n sorted).length ≤ n ∧
    (∀ r ∈ get_top_performers n sorted, ∃ c lq, c ∈ companies ∧
      latestQuote c.symbol scan = some lq ∧ lq.percent_change = some r.percent_change ∧
      r.symbol = c.symbol ∧
      ∀ q' ∈ tbl, q'.symbol = c.symbol → q'.timestamp ≤ lq.timestamp) ∧
    (get_top_performers n sorted).Pairwise pcBefore ∧
    (∀ r ∈ get_top_performers n sorted, ∀ r' ∈ topPerfJoin companies scan,
      r' ∉ get_top_performers n sorted → r'.percent_change ≤ r.percent_change) := by
  obtain ⟨hperm, hsort⟩ := ht
  refine ⟨List.length_take_le n sorted, ?_, hsort.sublist (List.take_sublist n sorted), ?_⟩
  · intro r hr
    have hrs : r ∈ sorted := List.take_subset n sorted hr
    have hrj : r ∈ topPerfJoin companies scan := hperm.mem_iff.mp hrs
    obtain ⟨c, hcmem, hfc⟩ := List.mem_filterMap.mp hrj
    cases hlq : latestQuote c.symbol scan with
    | none => rw [hlq] at hfc; simp at hfc
    | some lq =>
      rw [hlq] at hfc
      cases hpc : lq.percent_change with
      | none => simp [hpc] at hfc
      | some p =>
        simp only [hpc] at hfc
        simp only [Option.some.injEq] at hfc
        obtain ⟨h1, h2, h3⟩ := latestQuote_mem_max tbl scan c.symbol hq lq hlq
        refine ⟨c, lq, hcmem, hlq, ?_, ?_, h3⟩
        · rw [← hfc, hpc]
        · rw [← hfc]
  · intro r hr r' hr'j hr'not
    have hr's : r' ∈ sorted := hperm.mem_iff.mpr hr'j
    have hp : (sorted.take n ++ sorted.drop n).Pairwise pcBefore := by
      rw [List.take_append_drop]
      exact hsort
    have hr'drop : r' ∈ sorted.drop n := by
      have : r' ∈ sorted.take n ++ sorted.drop n := by
        rw [List.take_append_drop]
        exact hr's
      rcases List.mem_append.mp this with h | h
      · exact absurd h hr'not
      · exact h
    exact (List.pairwise_append.mp hp).2.2 r hr r' hr'drop

/-- Witness for C6 at a concrete database: AAPL has a non-null latest percent
change and is returned; MSFT's latest percent change is null and is filtered
out of the join. -/
theorem get_top_performers_witness :
    isAdmissibleScan [appleQ1, msftQ1] [appleQ1, msftQ1] ∧
    isAdmissibleTopOrder [appleCo, msftCo] [appleQ1, msftQ1]
      [⟨"AAPL", some "Apple", some 1901200, 6500⟩] ∧
    ((get_top_performers 1 [⟨"AAPL", some "Apple", some 1901200, 6500⟩]).length ≤ 1 ∧
      (∀ r ∈ get_top_performers 1 [⟨"AAPL", some "Apple", some 1901200, 6500⟩],
        ∃ c lq, c ∈ [appleCo, msftCo] ∧
        latestQuote c.symbol [appleQ1, msftQ1] = some lq ∧
        lq.percent_change = some r.percent_change ∧ r.symbol = c.symbol ∧
        ∀ q' ∈ [appleQ1, msftQ1], q'.symbol = c.symbol →
          q'.timestamp ≤ lq.timestamp) ∧
      (get_top_performers 1 [⟨"AAPL", some "Apple", some 1901200, 6500⟩]).Pairwise
        pcBefore ∧
      (∀ r ∈ get_top_performers 1 [⟨"AAPL", some "Apple", some 1901200, 6500⟩],
        ∀ r' ∈ topPerfJoin [appleCo, msftCo] [appleQ1, msftQ1],
        r' ∉ get_top_performers 1 [⟨"AAPL", some "Apple", some 1901200, 6500⟩] →
          r'.percent_change ≤ r.percent_change)) :=
  ⟨by decide, by decide,
    get_top_performers_props [appleCo, msftCo] [appleQ1, msftQ1] [appleQ1, msftQ1]
      [⟨"AAPL", some "Apple", some 1901200, 6500⟩] 1 (by decide) (by decide)⟩

end StockApp
